import Mathlib

/-!
Verification of the smart-cursor-undo history manager (src/smartCursorUndo.ts).

The TypeScript source is embedded shallowly: `vscode.Position`,
`vscode.Selection` and `vscode.Range` become structures over `Nat`,
JavaScript arrays used as stacks become `List`s with push at the end
(`concat`), pop from the end (`getLast?` / `dropLast`) and `shift`
dropping the head, and timestamps (from `Date.getTime()`) become `Int`.
All functions mirror the source line by line; a separately named
`spec...` definition follows the natural-language specification where
a refinement between the two is proved.
-/

/-- A `vscode.Position`: zero-based line and character. -/
structure Position where
  line : Nat
  character : Nat
deriving DecidableEq

/-- `Position.isBefore`: strictly earlier in document order (line, then character). -/
def Position.isBefore (p q : Position) : Bool :=
  p.line < q.line || (p.line == q.line && p.character < q.character)

/-- `Position.isBeforeOrEqual`: earlier or equal in document order. -/
def Position.isBeforeOrEqual (p q : Position) : Bool :=
  p.line < q.line || (p.line == q.line && p.character ≤ q.character)

/-- `Position.isEqual`: same line and character. -/
def Position.isEqual (p q : Position) : Bool :=
  p.line == q.line && p.character == q.character

/-- A `vscode.Selection`: an anchor/active pair of positions. -/
structure Selection where
  anchor : Position
  active : Position
deriving DecidableEq

/-- `Selection.start` (inherited from `Range`): the earlier of anchor and active. -/
def Selection.start (s : Selection) : Position :=
  if s.anchor.isBeforeOrEqual s.active then s.anchor else s.active

/-- `Selection.end` (inherited from `Range`; `end` is a Lean keyword): the later of anchor and active. -/
def Selection.endPos (s : Selection) : Position :=
  if s.anchor.isBeforeOrEqual s.active then s.active else s.anchor

/-- `Selection.isEmpty` (inherited from `Range`): start equals end. -/
def Selection.isEmpty (s : Selection) : Bool :=
  s.start.isEqual s.endPos

/-- `Selection.isEqual` (inherited from `Range.isEqual`): equal start and end
positions.  Note this compares the *normalized* endpoints, not anchor/active. -/
def Selection.isEqual (s1 s2 : Selection) : Bool :=
  s1.start.isEqual s2.start && s1.endPos.isEqual s2.endPos

/-- Default selection used for out-of-range list indexing; every indexed access
in the embedded code is guarded in bounds exactly as the source's loops are. -/
def selDefault : Selection := ⟨⟨0, 0⟩, ⟨0, 0⟩⟩

/-- The `SelectionsHistory` record (the "selection window"). -/
structure SelectionsHistory where
  previousOfLastSelections : List Selection
  previousOfLastDocumentVersion : Nat
  lastSelections : List Selection
  lastDocumentVersion : Nat
deriving DecidableEq

/-- An `UndoItem`: one history entry, a selection list. -/
structure UndoItem where
  selections : List Selection
deriving DecidableEq

/-- The per-document `DocumentHistory` record. -/
structure DocumentHistory where
  selectionsHistory : SelectionsHistory
  undoStack : List UndoItem
  redoStack : List UndoItem
  lastSelectionsTimestamp : Int
  undoRedoCounter : Nat
deriving DecidableEq

/-- `MAX_STACK_SIZE` from the source. -/
def MAX_STACK_SIZE : Nat := 999

/-- `FOUR_SECONDS` from the source (milliseconds). -/
def FOUR_SECONDS : Int := 4 * 1000

/-- `Math.abs(a - b)` on line numbers. -/
def absLineDiff (a b : Nat) : Nat := ((a : Int) - (b : Int)).natAbs

/-- `areSelectionsEqual` from the source: same length, and elementwise
`Selection.isEqual` (which is `Range.isEqual`, i.e. start/end equality). -/
def areSelectionsEqual (selections1 selections2 : List Selection) : Bool :=
  selections1.length == selections2.length &&
    (List.range selections1.length).all fun i =>
      (selections1.getD i selDefault).isEqual (selections2.getD i selDefault)

/-- `isLastSelectionsChangeSignificant` from the source: the eight-rule
significance classifier, evaluated in order with short-circuit. -/
def isLastSelectionsChangeSignificant (sh : SelectionsHistory)
    (selections : List Selection) (documentVersion : Nat) : Bool :=
  -- Rule #1
  if selections.length != sh.lastSelections.length then true
  -- Rule #2
  else if sh.lastSelections.length != sh.previousOfLastSelections.length then true
  -- Rules #3 and #4
  else if (List.range selections.length).any (fun i =>
      (!(selections.getD i selDefault).isEmpty && (sh.lastSelections.getD i selDefault).isEmpty)
      || ((selections.getD i selDefault).isEmpty && !(sh.lastSelections.getD i selDefault).isEmpty)) then true
  -- Rule #5
  else if (List.range selections.length).any (fun i =>
      !(selections.getD i selDefault).isEmpty
      && !(selections.getD i selDefault).anchor.isEqual (sh.lastSelections.getD i selDefault).anchor
      && !(selections.getD i selDefault).active.isEqual (sh.lastSelections.getD i selDefault).active) then true
  -- Rule #6
  else if (List.range sh.lastSelections.length).any (fun i =>
      let diff1Lines := absLineDiff (sh.lastSelections.getD i selDefault).active.line
        (sh.previousOfLastSelections.getD i selDefault).active.line
      let diff2Lines := absLineDiff (selections.getD i selDefault).active.line
        (sh.lastSelections.getD i selDefault).active.line
      decide (diff1Lines * 5 < diff2Lines) || decide (diff1Lines > diff2Lines * 5)) then true
  -- Rule #7
  else if sh.previousOfLastDocumentVersion == sh.lastDocumentVersion
      && sh.lastDocumentVersion != documentVersion then true
  -- Rule #8
  else if sh.previousOfLastDocumentVersion != sh.lastDocumentVersion
      && sh.lastDocumentVersion == documentVersion then true
  -- Change not significant
  else false

/-- `updateHistoryWithNewSelections` from the source: shift the window forward. -/
def updateHistoryWithNewSelections (history : DocumentHistory)
    (selections : List Selection) (version : Nat) : DocumentHistory :=
  { history with selectionsHistory :=
    { previousOfLastSelections := history.selectionsHistory.lastSelections
      previousOfLastDocumentVersion := history.selectionsHistory.lastDocumentVersion
      lastSelections := selections
      lastDocumentVersion := version } }

/-- `pushIntoUndoStack` from the source: push with dedup against the top. -/
def pushIntoUndoStack (history : DocumentHistory) (selections : List Selection) :
    DocumentHistory :=
  match history.undoStack.getLast? with
  | none => { history with undoStack := history.undoStack.concat ⟨selections⟩ }
  | some lastUndoItem =>
    if areSelectionsEqual selections lastUndoItem.selections then history
    else { history with undoStack := history.undoStack.concat ⟨selections⟩ }

/-- `pushIntoRedoStack` from the source: push with dedup against the top. -/
def pushIntoRedoStack (history : DocumentHistory) (selections : List Selection) :
    DocumentHistory :=
  match history.redoStack.getLast? with
  | none => { history with redoStack := history.redoStack.concat ⟨selections⟩ }
  | some lastRedoItem =>
    if areSelectionsEqual selections lastRedoItem.selections then history
    else { history with redoStack := history.redoStack.concat ⟨selections⟩ }

/-- `getInitialSelectionsHistory` from the source, with the editor state
(`editor.selections`, `editor.document.version`) passed explicitly. -/
def getInitialSelectionsHistory (liveSelections : List Selection)
    (documentVersion : Nat) : SelectionsHistory :=
  { previousOfLastSelections := []
    previousOfLastDocumentVersion := documentVersion
    lastSelections := liveSelections
    lastDocumentVersion := documentVersion }

/-- `getInitialDocumentHistory` from the source, with the editor state and the
clock (`new Date().getTime()`) passed explicitly. -/
def getInitialDocumentHistory (liveSelections : List Selection)
    (documentVersion : Nat) (now : Int) : DocumentHistory :=
  { selectionsHistory := getInitialSelectionsHistory liveSelections documentVersion
    undoStack := []
    redoStack := []
    lastSelectionsTimestamp := now
    undoRedoCounter := 0 }

/-- `handleSelectionChange` from the source, for a document whose history is
initialized (the source throws otherwise).  The event carries the new
selections, the document version and the clock reading. -/
def handleSelectionChange (history : DocumentHistory) (selections : List Selection)
    (documentVersion : Nat) (timestamp : Int) : DocumentHistory :=
  if history.undoRedoCounter > 0 then
    { history with undoRedoCounter := history.undoRedoCounter - 1 }
  else
    let history1 :=
      if timestamp - history.lastSelectionsTimestamp > FOUR_SECONDS
          || isLastSelectionsChangeSignificant history.selectionsHistory selections documentVersion then
        let history2 := pushIntoUndoStack history history.selectionsHistory.lastSelections
        let history3 :=
          if history2.undoStack.length > MAX_STACK_SIZE then
            { history2 with undoStack := history2.undoStack.drop 1 }
          else history2
        { history3 with redoStack := [] }
      else history
    let history4 := updateHistoryWithNewSelections history1 selections documentVersion
    { history4 with lastSelectionsTimestamp := timestamp }

/-- `cursorUndo` from the source, for a document with an active editor.
`history?` is the table lookup (`documentsHistory[documentId]`); a missing
history is lazily initialized.  Returns the updated history together with the
live selections after the command. -/
def cursorUndo (history? : Option DocumentHistory) (liveSelections : List Selection)
    (documentVersion : Nat) (now : Int) : DocumentHistory × List Selection :=
  let history :=
    match history? with
    | none => getInitialDocumentHistory liveSelections documentVersion now
    | some h => h
  match history.undoStack.getLast? with
  | none => (history, liveSelections)
  | some undoItem =>
    let history1 := { history with undoStack := history.undoStack.dropLast }
    let history2 := pushIntoRedoStack history1 liveSelections
    let newLiveSelections := undoItem.selections
    let history3 := { history2 with undoRedoCounter := history2.undoRedoCounter + 1 }
    let history4 := { history3 with
      selectionsHistory := getInitialSelectionsHistory newLiveSelections documentVersion }
    (history4, newLiveSelections)

/-- The error message thrown by `cursorRedo` on a missing history. -/
def missingHistoryError : String :=
  "Expect to get cursor history, but got undefined."

/-- `cursorRedo` from the source: throws (`Except.error`) when the document's
history was never initialized; otherwise pops the redo stack. -/
def cursorRedo (history? : Option DocumentHistory) (liveSelections : List Selection)
    (documentVersion : Nat) : Except String (DocumentHistory × List Selection) :=
  match history? with
  | none => .error missingHistoryError
  | some history =>
    match history.redoStack.getLast? with
    | none => .ok (history, liveSelections)
    | some redoItem =>
      let history1 := { history with redoStack := history.redoStack.dropLast }
      let history2 := pushIntoUndoStack history1 liveSelections
      let newLiveSelections := redoItem.selections
      let history3 := { history2 with undoRedoCounter := history2.undoRedoCounter + 1 }
      let history4 := { history3 with
        selectionsHistory := getInitialSelectionsHistory newLiveSelections documentVersion }
      (.ok (history4, newLiveSelections))

/-- A `vscode.Range` with normalized endpoints (start before or equal to the
other endpoint; the ranges the reveal code builds satisfy this). -/
structure Range where
  start : Position
  endPos : Position
deriving DecidableEq

/-- `Range.contains(position)`: start before-or-equal position and position
before-or-equal end, in document order. -/
def Range.contains (r : Range) (p : Position) : Bool :=
  r.start.isBeforeOrEqual p && p.isBeforeOrEqual r.endPos

/-- The document model needed by `validateRange`: the length of every line.
`lineLengths.length` is the line count (a real document has at least one line). -/
structure TextDocument where
  lineLengths : List Nat
deriving DecidableEq

/-- Number of lines of the document. -/
def TextDocument.lineCount (d : TextDocument) : Nat := d.lineLengths.length

/-- Length of a given line (0 for lines past the end, never consulted there). -/
def TextDocument.lineLength (d : TextDocument) (l : Nat) : Nat :=
  d.lineLengths.getD l 0

/-- `TextDocument.validatePosition`: clamp a position to a valid document
position (line clamped to the last line, character to the line's length). -/
def TextDocument.validatePosition (d : TextDocument) (p : Position) : Position :=
  if p.line ≥ d.lineCount then
    ⟨d.lineCount - 1, d.lineLength (d.lineCount - 1)⟩
  else
    ⟨p.line, min p.character (d.lineLength p.line)⟩

/-- `TextDocument.validateRange`: clamp both endpoints. -/
def TextDocument.validateRange (d : TextDocument) (r : Range) : Range :=
  ⟨d.validatePosition r.start, d.validatePosition r.endPos⟩

/-- `NEARLY_VISIBLE_LINES` from the source. -/
def NEARLY_VISIBLE_LINES : Nat := 15

/-- The three possible outcomes of `revealActiveCursor`: no scroll, plain
`revealRange` (minimal scroll), or `revealRange` with `InCenter`. -/
inductive RevealAction where
  | noScroll
  | minimal
  | center
deriving DecidableEq

/-- `isCursorNearlyVisibleInRange` from the source: extend the visible range by
`NEARLY_VISIBLE_LINES` lines on each side (keeping each endpoint's character,
clamping the start line at 0 via `Math.max`), validate it against the document,
and test containment of the active position. -/
def isCursorNearlyVisibleInRange (visibleRange : Range) (doc : TextDocument)
    (active : Position) : Bool :=
  let nearlyVisibleStart : Position :=
    ⟨visibleRange.start.line - NEARLY_VISIBLE_LINES, visibleRange.start.character⟩
  let nearlyVisibleEnd : Position :=
    ⟨visibleRange.endPos.line + NEARLY_VISIBLE_LINES, visibleRange.endPos.character⟩
  (doc.validateRange ⟨nearlyVisibleStart, nearlyVisibleEnd⟩).contains active

/-- `revealActiveCursor` from the source, as the pure decision it computes:
visible ranges and the primary selection's active position in, one of the three
reveal actions out. -/
def revealActiveCursor (visibleRanges : List Range) (doc : TextDocument)
    (active : Position) : RevealAction :=
  if visibleRanges.any (fun range => range.contains active) then
    .noScroll
  else if visibleRanges.any (fun range => isCursorNearlyVisibleInRange range doc active) then
    .minimal
  else
    .center

/-- One externally observable operation on a document's history: an organic or
self-triggered selection-change event, or one of the two commands. -/
inductive Op where
  | selChange (sels : List Selection) (ver : Nat) (now : Int)
  | undo (ver : Nat)
  | redo (ver : Nat)

/-- The state the operations act on: the document's history together with the
editor's live selections. -/
structure EditorState where
  history : DocumentHistory
  live : List Selection
deriving DecidableEq

/-- One step of the system.  A selection-change event goes through
`handleSelectionChange` and leaves the live selections at the event's
selections; undo and redo run the corresponding command (with the history
present, `cursorRedo` cannot throw, and the error branch is unreachable). -/
def step (s : EditorState) (op : Op) : EditorState :=
  match op with
  | .selChange sels ver now => ⟨handleSelectionChange s.history sels ver now, sels⟩
  | .undo ver =>
    let r := cursorUndo (some s.history) s.live ver s.history.lastSelectionsTimestamp
    ⟨r.1, r.2⟩
  | .redo ver =>
    match cursorRedo (some s.history) s.live ver with
    | .ok r => ⟨r.1, r.2⟩
    | .error _ => s

/-- Run a sequence of operations from a state. -/
def run (s : EditorState) (ops : List Op) : EditorState :=
  ops.foldl step s

theorem pushIntoUndoStack_fields (h : DocumentHistory) (s : List Selection) :
    (pushIntoUndoStack h s).redoStack = h.redoStack
    ∧ (pushIntoUndoStack h s).selectionsHistory = h.selectionsHistory
    ∧ (pushIntoUndoStack h s).lastSelectionsTimestamp = h.lastSelectionsTimestamp
    ∧ (pushIntoUndoStack h s).undoRedoCounter = h.undoRedoCounter := by
  unfold pushIntoUndoStack
  cases h.undoStack.getLast? with
  | none => exact ⟨rfl, rfl, rfl, rfl⟩
  | some it =>
    by_cases he : areSelectionsEqual s it.selections = true <;> simp [he]

theorem pushIntoRedoStack_fields (h : DocumentHistory) (s : List Selection) :
    (pushIntoRedoStack h s).undoStack = h.undoStack
    ∧ (pushIntoRedoStack h s).selectionsHistory = h.selectionsHistory
    ∧ (pushIntoRedoStack h s).lastSelectionsTimestamp = h.lastSelectionsTimestamp
    ∧ (pushIntoRedoStack h s).undoRedoCounter = h.undoRedoCounter := by
  unfold pushIntoRedoStack
  cases h.redoStack.getLast? with
  | none => exact ⟨rfl, rfl, rfl, rfl⟩
  | some it =>
    by_cases he : areSelectionsEqual s it.selections = true <;> simp [he]

theorem pushIntoUndoStack_cases (h : DocumentHistory) (s : List Selection) :
    (pushIntoUndoStack h s).undoStack = h.undoStack
    ∨ (pushIntoUndoStack h s).undoStack = h.undoStack.concat ⟨s⟩ := by
  unfold pushIntoUndoStack
  cases h.undoStack.getLast? with
  | none => exact Or.inr rfl
  | some it =>
    by_cases he : areSelectionsEqual s it.selections = true <;> simp [he]

theorem pushIntoRedoStack_cases (h : DocumentHistory) (s : List Selection) :
    (pushIntoRedoStack h s).redoStack = h.redoStack
    ∨ (pushIntoRedoStack h s).redoStack = h.redoStack.concat ⟨s⟩ := by
  unfold pushIntoRedoStack
  cases h.redoStack.getLast? with
  | none => exact Or.inr rfl
  | some it =>
    by_cases he : areSelectionsEqual s it.selections = true <;> simp [he]

theorem pushIntoUndoStack_length (h : DocumentHistory) (s : List Selection) :
    h.undoStack.length ≤ (pushIntoUndoStack h s).undoStack.length
    ∧ (pushIntoUndoStack h s).undoStack.length ≤ h.undoStack.length + 1 := by
  rcases pushIntoUndoStack_cases h s with hc | hc <;> rw [hc] <;> simp

theorem pushIntoRedoStack_length (h : DocumentHistory) (s : List Selection) :
    h.redoStack.length ≤ (pushIntoRedoStack h s).redoStack.length
    ∧ (pushIntoRedoStack h s).redoStack.length ≤ h.redoStack.length + 1 := by
  rcases pushIntoRedoStack_cases h s with hc | hc <;> rw [hc] <;> simp

/-- C6: invoking redo on a document whose history was never initialized throws
an error, whereas undo on the same uninitialized document lazily initializes
the history (empty stacks, fresh window, suppression counter zero) and then
behaves as a nothing-to-undo no-op, leaving the live selections unchanged. -/
theorem c6_uninitialized_redo_throws_undo_heals (live : List Selection) (ver : Nat) (now : Int) :
    cursorRedo none live ver = .error missingHistoryError
    ∧ cursorUndo none live ver now = (getInitialDocumentHistory live ver now, live) :=
  ⟨rfl, rfl⟩

/-- C7: undo (resp. redo) on an initialized history whose undo (resp. redo)
stack is empty is a non-error no-op: the history record (both stacks, window,
counter, timestamp) and the live selections are returned unchanged. -/
theorem c7_empty_stack_noop (h : DocumentHistory) (live : List Selection) (ver : Nat) (now : Int) :
    (h.undoStack = [] → cursorUndo (some h) live ver now = (h, live))
    ∧ (h.redoStack = [] → cursorRedo (some h) live ver = .ok (h, live)) := by
  constructor
  · intro hu
    unfold cursorUndo
    simp [hu]
  · intro hr
    unfold cursorRedo
    simp [hr]

def emptyStacksHistory : DocumentHistory := ⟨⟨[], 1, [selDefault], 1⟩, [], [], 0, 0⟩

theorem c7_empty_stack_noop_witness :
    cursorUndo (some emptyStacksHistory) [selDefault] 1 0 = (emptyStacksHistory, [selDefault])
    ∧ cursorRedo (some emptyStacksHistory) [selDefault] 1 = .ok (emptyStacksHistory, [selDefault]) :=
  ⟨(c7_empty_stack_noop emptyStacksHistory [selDefault] 1 0).1 rfl,
   (c7_empty_stack_noop emptyStacksHistory [selDefault] 1 0).2 rfl⟩

/-- C8: a selection-change event delivered while the suppression counter is
positive only decrements the counter; every other component of the document
history (stacks, window, timestamp) is unchanged. -/
theorem c8_suppressed_event_only_decrements (h : DocumentHistory) (sels : List Selection)
    (ver : Nat) (now : Int) (hcnt : h.undoRedoCounter > 0) :
    handleSelectionChange h sels ver now = { h with undoRedoCounter := h.undoRedoCounter - 1 } := by
  unfold handleSelectionChange
  simp [hcnt]

def suppressedHistory : DocumentHistory := ⟨⟨[], 1, [selDefault], 1⟩, [], [], 0, 1⟩

theorem c8_suppressed_event_only_decrements_witness :
    handleSelectionChange suppressedHistory [selDefault] 1 0
      = { suppressedHistory with undoRedoCounter := suppressedHistory.undoRedoCounter - 1 } :=
  c8_suppressed_event_only_decrements suppressedHistory [selDefault] 1 0 (by decide)

theorem handleSelectionChange_unsuppressed_spec (h : DocumentHistory) (sels : List Selection)
    (ver : Nat) (now : Int) (hcnt : h.undoRedoCounter = 0) :
    (handleSelectionChange h sels ver now).undoStack
      = (if now - h.lastSelectionsTimestamp > FOUR_SECONDS
            || isLastSelectionsChangeSignificant h.selectionsHistory sels ver then
          if (pushIntoUndoStack h h.selectionsHistory.lastSelections).undoStack.length > MAX_STACK_SIZE then
            (pushIntoUndoStack h h.selectionsHistory.lastSelections).undoStack.drop 1
          else (pushIntoUndoStack h h.selectionsHistory.lastSelections).undoStack
        else h.undoStack)
    ∧ (handleSelectionChange h sels ver now).redoStack
      = (if now - h.lastSelectionsTimestamp > FOUR_SECONDS
            || isLastSelectionsChangeSignificant h.selectionsHistory sels ver then ([] : List UndoItem)
         else h.redoStack)
    ∧ (handleSelectionChange h sels ver now).selectionsHistory
      = { previousOfLastSelections := h.selectionsHistory.lastSelections
          previousOfLastDocumentVersion := h.selectionsHistory.lastDocumentVersion
          lastSelections := sels
          lastDocumentVersion := ver }
    ∧ (handleSelectionChange h sels ver now).lastSelectionsTimestamp = now
    ∧ (handleSelectionChange h sels ver now).undoRedoCounter = h.undoRedoCounter := by
  unfold handleSelectionChange
  simp only [hcnt, lt_irrefl, gt_iff_lt, if_false, updateHistoryWithNewSelections]
  split
  · split <;>
      simp_all [updateHistoryWithNewSelections, (pushIntoUndoStack_fields h _).2.1,
        (pushIntoUndoStack_fields h _).2.2.2]
  · simp_all [updateHistoryWithNewSelections]

/-- C2: for an unsuppressed selection-change event, the window's last selection
list is pushed onto the undo stack (dedup, then trim by dropping the oldest)
and the redo stack is cleared exactly when the event is more than 4000 ms after
the last recorded one or classified significant; and in every unsuppressed call
the window shifts forward (previous becomes the old last, last becomes the
event's selections and version) and the timestamp is set to the event's clock
reading. -/
theorem c2_unsuppressed_commit_iff (h : DocumentHistory) (sels : List Selection)
    (ver : Nat) (now : Int) (hcnt : h.undoRedoCounter = 0) :
    (handleSelectionChange h sels ver now).undoStack
      = (if now - h.lastSelectionsTimestamp > FOUR_SECONDS
            || isLastSelectionsChangeSignificant h.selectionsHistory sels ver then
          if (pushIntoUndoStack h h.selectionsHistory.lastSelections).undoStack.length > MAX_STACK_SIZE then
            (pushIntoUndoStack h h.selectionsHistory.lastSelections).undoStack.drop 1
          else (pushIntoUndoStack h h.selectionsHistory.lastSelections).undoStack
        else h.undoStack)
    ∧ (handleSelectionChange h sels ver now).redoStack
      = (if now - h.lastSelectionsTimestamp > FOUR_SECONDS
            || isLastSelectionsChangeSignificant h.selectionsHistory sels ver then ([] : List UndoItem)
         else h.redoStack)
    ∧ (handleSelectionChange h sels ver now).selectionsHistory
      = { previousOfLastSelections := h.selectionsHistory.lastSelections
          previousOfLastDocumentVersion := h.selectionsHistory.lastDocumentVersion
          lastSelections := sels
          lastDocumentVersion := ver }
    ∧ (handleSelectionChange h sels ver now).lastSelectionsTimestamp = now
    ∧ (handleSelectionChange h sels ver now).undoRedoCounter = h.undoRedoCounter :=
  handleSelectionChange_unsuppressed_spec h sels ver now hcnt

def unsuppressedHistory : DocumentHistory :=
  ⟨⟨[], 1, [⟨⟨0, 0⟩, ⟨0, 0⟩⟩], 1⟩, [], [⟨[selDefault]⟩], 0, 0⟩

theorem c2_unsuppressed_commit_iff_witness :
    (handleSelectionChange unsuppressedHistory [selDefault] 1 10).undoStack
      = (if (10 : Int) - unsuppressedHistory.lastSelectionsTimestamp > FOUR_SECONDS
            || isLastSelectionsChangeSignificant unsuppressedHistory.selectionsHistory [selDefault] 1 then
          if (pushIntoUndoStack unsuppressedHistory unsuppressedHistory.selectionsHistory.lastSelections).undoStack.length > MAX_STACK_SIZE then
            (pushIntoUndoStack unsuppressedHistory unsuppressedHistory.selectionsHistory.lastSelections).undoStack.drop 1
          else (pushIntoUndoStack unsuppressedHistory unsuppressedHistory.selectionsHistory.lastSelections).undoStack
        else unsuppressedHistory.undoStack)
    ∧ (handleSelectionChange unsuppressedHistory [selDefault] 1 10).redoStack
      = (if (10 : Int) - unsuppressedHistory.lastSelectionsTimestamp > FOUR_SECONDS
            || isLastSelectionsChangeSignificant unsuppressedHistory.selectionsHistory [selDefault] 1 then ([] : List UndoItem)
         else unsuppressedHistory.redoStack)
    ∧ (handleSelectionChange unsuppressedHistory [selDefault] 1 10).selectionsHistory
      = { previousOfLastSelections := unsuppressedHistory.selectionsHistory.lastSelections
          previousOfLastDocumentVersion := unsuppressedHistory.selectionsHistory.lastDocumentVersion
          lastSelections := [selDefault]
          lastDocumentVersion := 1 }
    ∧ (handleSelectionChange unsuppressedHistory [selDefault] 1 10).lastSelectionsTimestamp = 10
    ∧ (handleSelectionChange unsuppressedHistory [selDefault] 1 10).undoRedoCounter
        = unsuppressedHistory.undoRedoCounter :=
  c2_unsuppressed_commit_iff unsuppressedHistory [selDefault] 1 10 rfl

/-- C5: delivering the same unsuppressed selection snapshot in two consecutive
selection-change events, with no significant change between them (the second
event is within the 4000 ms debounce window and the classifier rejects it
against the shifted window), grows the undo stack by at most one entry in
total across the two events. -/
theorem c5_immediate_repetition_grows_at_most_one (h : DocumentHistory)
    (sels : List Selection) (ver : Nat) (t1 t2 : Int)
    (hcnt : h.undoRedoCounter = 0)
    (hdt : t2 - t1 ≤ FOUR_SECONDS)
    (hsig : isLastSelectionsChangeSignificant
      (handleSelectionChange h sels ver t1).selectionsHistory sels ver = false) :
    (handleSelectionChange (handleSelectionChange h sels ver t1) sels ver t2).undoStack.length
      ≤ h.undoStack.length + 1 := by
  obtain ⟨hu1, _, _, hts1, hc1⟩ := handleSelectionChange_unsuppressed_spec h sels ver t1 hcnt
  obtain ⟨hu2, _, _, _, _⟩ :=
    handleSelectionChange_unsuppressed_spec (handleSelectionChange h sels ver t1) sels ver t2
      (by rw [hc1, hcnt])
  rw [hu2]
  split
  · rename_i hcond2
    rw [hts1, hsig] at hcond2
    simp only [Bool.or_false, decide_eq_true_eq] at hcond2
    omega
  · rw [hu1]
    split
    · have hlen := pushIntoUndoStack_length h h.selectionsHistory.lastSelections
      split
      · simp only [List.length_drop]
        omega
      · omega
    · omega

def c5RepeatHistory : DocumentHistory :=
  ⟨⟨[⟨⟨0, 0⟩, ⟨0, 0⟩⟩], 1, [⟨⟨2, 5⟩, ⟨2, 5⟩⟩], 1⟩, [], [], 0, 0⟩

def c5RepeatSels : List Selection := [⟨⟨2, 0⟩, ⟨2, 0⟩⟩]

theorem c5_immediate_repetition_grows_at_most_one_witness :
    (handleSelectionChange (handleSelectionChange c5RepeatHistory c5RepeatSels 1 1)
        c5RepeatSels 1 2).undoStack.length
      ≤ c5RepeatHistory.undoStack.length + 1 :=
  c5_immediate_repetition_grows_at_most_one c5RepeatHistory c5RepeatSels 1 1 2
    rfl (by decide) (by decide)

theorem Position.isBeforeOrEqual_total (p q : Position) :
    p.isBeforeOrEqual q = true ∨ q.isBeforeOrEqual p = true := by
  simp only [Position.isBeforeOrEqual, Bool.or_eq_true, Bool.and_eq_true,
    decide_eq_true_eq, beq_iff_eq]
  omega

theorem Selection.isEqual_reversed (a b : Position) :
    Selection.isEqual ⟨a, b⟩ ⟨b, a⟩ = true := by
  simp only [Selection.isEqual, Selection.start, Selection.endPos]
  split_ifs with h1 h2 h2 <;>
    simp_all [Position.isBeforeOrEqual, Position.isEqual] <;> omega

def reversedSelTopHistory : DocumentHistory :=
  ⟨⟨[], 1, [], 1⟩, [⟨[⟨⟨0, 0⟩, ⟨0, 5⟩⟩]⟩], [⟨[⟨⟨0, 0⟩, ⟨0, 5⟩⟩]⟩], 0, 0⟩

/-- C4 counterexample: the claim says a selection list differing from the
stack's top only in which endpoint is the anchor is *not* equal under the
dedup comparison and is therefore pushed.  In the code, `areSelectionsEqual`
uses `Selection.isEqual`, inherited from `Range.isEqual`, which compares the
normalized start/end positions only: the reversed list compares equal and the
push is skipped on both stacks. -/
theorem c4_counterexample_reversed_selection_deduped :
    areSelectionsEqual [⟨⟨0, 5⟩, ⟨0, 0⟩⟩] [⟨⟨0, 0⟩, ⟨0, 5⟩⟩] = true
    ∧ pushIntoUndoStack reversedSelTopHistory [⟨⟨0, 5⟩, ⟨0, 0⟩⟩] = reversedSelTopHistory
    ∧ pushIntoRedoStack reversedSelTopHistory [⟨⟨0, 5⟩, ⟨0, 0⟩⟩] = reversedSelTopHistory := by
  refine ⟨by decide, by decide, by decide⟩

theorem pushIntoUndoStack_skip_iff (h : DocumentHistory) (sels : List Selection) :
    (pushIntoUndoStack h sels).undoStack = h.undoStack
      ↔ ∃ top, h.undoStack.getLast? = some top ∧ areSelectionsEqual sels top.selections = true := by
  unfold pushIntoUndoStack
  cases hl : h.undoStack.getLast? with
  | none =>
    dsimp only
    constructor
    · intro hc
      exact absurd (congrArg List.length hc) (by simp)
    · rintro ⟨top, htop, -⟩
      exact Option.noConfusion htop
  | some it =>
    dsimp only
    by_cases he : areSelectionsEqual sels it.selections = true
    · rw [if_pos he]
      exact ⟨fun _ => ⟨it, rfl, he⟩, fun _ => rfl⟩
    · rw [if_neg he]
      dsimp only
      constructor
      · intro hc
        exact absurd (congrArg List.length hc) (by simp)
      · rintro ⟨top, htop, heq⟩
        cases Option.some.inj htop
        exact absurd heq he

theorem pushIntoRedoStack_skip_iff (h : DocumentHistory) (sels : List Selection) :
    (pushIntoRedoStack h sels).redoStack = h.redoStack
      ↔ ∃ top, h.redoStack.getLast? = some top ∧ areSelectionsEqual sels top.selections = true := by
  unfold pushIntoRedoStack
  cases hl : h.redoStack.getLast? with
  | none =>
    dsimp only
    constructor
    · intro hc
      exact absurd (congrArg List.length hc) (by simp)
    · rintro ⟨top, htop, -⟩
      exact Option.noConfusion htop
  | some it =>
    dsimp only
    by_cases he : areSelectionsEqual sels it.selections = true
    · rw [if_pos he]
      exact ⟨fun _ => ⟨it, rfl, he⟩, fun _ => rfl⟩
    · rw [if_neg he]
      dsimp only
      constructor
      · intro hc
        exact absurd (congrArg List.length hc) (by simp)
      · rintro ⟨top, htop, heq⟩
        cases Option.some.inj htop
        exact absurd heq he

/-- C4 (amended): every push onto the undo or the redo stack compares the new
selection list with the stack's current top by length plus indexwise *range*
equality (equal start and end positions, ignoring which endpoint is the
anchor), and the push is skipped exactly when they are equal in that sense;
when not skipped, the new entry is appended on top.  In particular a pair of
lists differing only in anchor/active orientation compares equal, so such a
push is skipped. -/
theorem c4_amended_dedup_by_range_equality (h : DocumentHistory) (sels : List Selection) :
    ((pushIntoUndoStack h sels).undoStack = h.undoStack
      ↔ ∃ top, h.undoStack.getLast? = some top ∧ areSelectionsEqual sels top.selections = true)
    ∧ ((pushIntoRedoStack h sels).redoStack = h.redoStack
      ↔ ∃ top, h.redoStack.getLast? = some top ∧ areSelectionsEqual sels top.selections = true)
    ∧ ((pushIntoUndoStack h sels).undoStack ≠ h.undoStack →
        (pushIntoUndoStack h sels).undoStack = h.undoStack.concat ⟨sels⟩)
    ∧ (∀ s1 s2 : List Selection, areSelectionsEqual s1 s2 = true ↔
        (s1.length = s2.length
          ∧ ∀ i < s1.length, (s1.getD i selDefault).isEqual (s2.getD i selDefault) = true))
    ∧ (∀ a b : Position, Selection.isEqual ⟨a, b⟩ ⟨b, a⟩ = true) := by
  refine ⟨pushIntoUndoStack_skip_iff h sels, pushIntoRedoStack_skip_iff h sels,
    ?_, ?_, Selection.isEqual_reversed⟩
  · intro hne
    rcases pushIntoUndoStack_cases h sels with hc | hc
    · exact absurd hc hne
    · exact hc
  · intro s1 s2
    simp only [areSelectionsEqual, Bool.and_eq_true, beq_iff_eq, List.all_eq_true,
      List.mem_range]

theorem c4_amended_dedup_by_range_equality_witness :
    (pushIntoUndoStack reversedSelTopHistory [⟨⟨0, 5⟩, ⟨0, 0⟩⟩]).undoStack
      = reversedSelTopHistory.undoStack :=
  (c4_amended_dedup_by_range_equality reversedSelTopHistory [⟨⟨0, 5⟩, ⟨0, 0⟩⟩]).1.mpr
    ⟨⟨[⟨⟨0, 0⟩, ⟨0, 5⟩⟩]⟩, by decide, by decide⟩

def fiftyLineDoc : TextDocument := ⟨List.replicate 50 10⟩

/-- C9 counterexample: the claim says an active position within 15 lines
above or below some visible range always gets a minimal reveal.  With the
visible range (20,0)-(30,5) in a 50-line document of 10-character lines, the
valid position (45,7) is exactly 15 lines below the range, yet the code's
nearly-visible range ends at character 5 of line 45, does not contain (45,7),
and a centered reveal is issued instead. -/
theorem c9_counterexample_boundary_character :
    ([⟨⟨20, 0⟩, ⟨30, 5⟩⟩] : List Range).all (fun r => !r.contains ⟨45, 7⟩) = true
    ∧ (45 : Nat) - 30 ≤ 15
    ∧ 45 < fiftyLineDoc.lineCount ∧ 7 ≤ fiftyLineDoc.lineLength 45
    ∧ revealActiveCursor [⟨⟨20, 0⟩, ⟨30, 5⟩⟩] fiftyLineDoc ⟨45, 7⟩ = RevealAction.center := by
  refine ⟨by decide, by decide, by decide, by decide, by decide⟩

/-- C9 (amended): the cursor-reveal policy is a pure three-way decision over
the visible ranges, the document bounds and the active position: no scroll
action exactly when some visible range contains the active position;
otherwise a minimal reveal exactly when the active position is contained in
some visible range extended by 15 lines above and below (each endpoint keeping
its character, the extended range clamped to valid document positions);
otherwise a centered reveal. -/
theorem c9_amended_reveal_decision (visibleRanges : List Range) (doc : TextDocument)
    (active : Position) :
    (revealActiveCursor visibleRanges doc active = RevealAction.noScroll
      ↔ ∃ r ∈ visibleRanges, r.contains active = true)
    ∧ (revealActiveCursor visibleRanges doc active = RevealAction.minimal
      ↔ ((∀ r ∈ visibleRanges, r.contains active = false)
          ∧ ∃ r ∈ visibleRanges, isCursorNearlyVisibleInRange r doc active = true))
    ∧ (revealActiveCursor visibleRanges doc active = RevealAction.center
      ↔ ((∀ r ∈ visibleRanges, r.contains active = false)
          ∧ ∀ r ∈ visibleRanges, isCursorNearlyVisibleInRange r doc active = false)) := by
  unfold revealActiveCursor
  by_cases h1 : visibleRanges.any (fun range => range.contains active) = true
  · rw [if_pos h1]
    rw [List.any_eq_true] at h1
    refine ⟨⟨fun _ => h1, fun _ => rfl⟩, ?_, ?_⟩ <;>
      · constructor
        · intro hc
          exact absurd hc (by decide)
        · rintro ⟨hall, -⟩
          obtain ⟨r, hr, hcont⟩ := h1
          exact absurd (hall r hr) (by simp [hcont])
  · rw [if_neg h1]
    have hall1 : ∀ r ∈ visibleRanges, r.contains active = false := by
      intro r hr
      by_contra hne
      exact h1 (List.any_eq_true.mpr ⟨r, hr, by simpa using hne⟩)
    by_cases h2 : visibleRanges.any (fun range => isCursorNearlyVisibleInRange range doc active) = true
    · rw [if_pos h2]
      rw [List.any_eq_true] at h2
      refine ⟨?_, ⟨fun _ => ⟨hall1, h2⟩, fun _ => rfl⟩, ?_⟩
      · constructor
        · intro hc
          exact absurd hc (by decide)
        · rintro ⟨r, hr, hcont⟩
          exact absurd (hall1 r hr) (by simp [hcont])
      · constructor
        · intro hc
          exact absurd hc (by decide)
        · rintro ⟨-, hall2⟩
          obtain ⟨r, hr, hnear⟩ := h2
          exact absurd (hall2 r hr) (by simp [hnear])
    · rw [if_neg h2]
      have hall2 : ∀ r ∈ visibleRanges, isCursorNearlyVisibleInRange r doc active = false := by
        intro r hr
        by_contra hne
        exact h2 (List.any_eq_true.mpr ⟨r, hr, by simpa using hne⟩)
      refine ⟨?_, ?_, fun _ => ⟨hall1, hall2⟩, fun _ => rfl⟩
      · constructor
        · intro hc
          exact absurd hc (by decide)
        · rintro ⟨r, hr, hcont⟩
          exact absurd (hall1 r hr) (by simp [hcont])
      · constructor
        · intro hc
          exact absurd hc (by decide)
        · rintro ⟨-, r, hr, hnear⟩
          exact absurd (hall2 r hr) (by simp [hnear])

/-- Spec rule 1: cursor count differs between candidate and last. -/
def specRule1 (sh : SelectionsHistory) (cur : List Selection) : Prop :=
  cur.length ≠ sh.lastSelections.length

/-- Spec rule 2: cursor count differs between last and previous. -/
def specRule2 (sh : SelectionsHistory) : Prop :=
  sh.lastSelections.length ≠ sh.previousOfLastSelections.length

/-- Spec rule 3: for some index the emptiness of the candidate selection
differs from the last selection. -/
def specRule3 (sh : SelectionsHistory) (cur : List Selection) : Prop :=
  ∃ i, i < cur.length ∧ i < sh.lastSelections.length ∧
    (cur.getD i selDefault).isEmpty ≠ (sh.lastSelections.getD i selDefault).isEmpty

/-- Spec rule 4: for some index the candidate selection is non-empty and both
its anchor and its active position differ from the last selection's. -/
def specRule4 (sh : SelectionsHistory) (cur : List Selection) : Prop :=
  ∃ i, i < cur.length ∧ i < sh.lastSelections.length ∧
    (cur.getD i selDefault).isEmpty = false
    ∧ (cur.getD i selDefault).anchor.isEqual (sh.lastSelections.getD i selDefault).anchor = false
    ∧ (cur.getD i selDefault).active.isEqual (sh.lastSelections.getD i selDefault).active = false

/-- Spec rule 5: for some index, with d1 the vertical distance from previous
to last and d2 the vertical distance from last to candidate, d1*5 < d2 or
d1 > d2*5. -/
def specRule5 (sh : SelectionsHistory) (cur : List Selection) : Prop :=
  ∃ i, i < cur.length ∧ i < sh.lastSelections.length
    ∧ i < sh.previousOfLastSelections.length
    ∧ (absLineDiff (sh.lastSelections.getD i selDefault).active.line
          (sh.previousOfLastSelections.getD i selDefault).active.line * 5
        < absLineDiff (cur.getD i selDefault).active.line
          (sh.lastSelections.getD i selDefault).active.line
      ∨ absLineDiff (sh.lastSelections.getD i selDefault).active.line
          (sh.previousOfLastSelections.getD i selDefault).active.line
        > absLineDiff (cur.getD i selDefault).active.line
          (sh.lastSelections.getD i selDefault).active.line * 5)

/-- Spec rule 6: previous and last versions agree and last differs from the
candidate version (an edit just started). -/
def specRule6 (sh : SelectionsHistory) (curVer : Nat) : Prop :=
  sh.previousOfLastDocumentVersion = sh.lastDocumentVersion
  ∧ sh.lastDocumentVersion ≠ curVer

/-- Spec rule 7: previous and last versions differ and last agrees with the
candidate version (an edit just stopped). -/
def specRule7 (sh : SelectionsHistory) (curVer : Nat) : Prop :=
  sh.previousOfLastDocumentVersion ≠ sh.lastDocumentVersion
  ∧ sh.lastDocumentVersion = curVer

/-- The specification's classifier contract: significant exactly when one of
the seven positive rules holds (the eighth rule is the final "otherwise
false"). -/
def specSignificant (sh : SelectionsHistory) (cur : List Selection) (curVer : Nat) : Prop :=
  specRule1 sh cur ∨ specRule2 sh ∨ specRule3 sh cur ∨ specRule4 sh cur
  ∨ specRule5 sh cur ∨ specRule6 sh curVer ∨ specRule7 sh curVer

theorem rule34_any_iff (sh : SelectionsHistory) (cur : List Selection)
    (hlen : cur.length = sh.lastSelections.length) :
    ((List.range cur.length).any (fun i =>
        (!(cur.getD i selDefault).isEmpty && (sh.lastSelections.getD i selDefault).isEmpty)
        || ((cur.getD i selDefault).isEmpty && !(sh.lastSelections.getD i selDefault).isEmpty)) = true)
      ↔ specRule3 sh cur := by
  rw [List.any_eq_true]
  constructor
  · rintro ⟨i, hi, hcond⟩
    rw [List.mem_range] at hi
    refine ⟨i, hi, by omega, ?_⟩
    revert hcond
    cases (cur.getD i selDefault).isEmpty <;>
      cases (sh.lastSelections.getD i selDefault).isEmpty <;> simp
  · rintro ⟨i, hi, -, hne⟩
    refine ⟨i, List.mem_range.mpr hi, ?_⟩
    revert hne
    cases (cur.getD i selDefault).isEmpty <;>
      cases (sh.lastSelections.getD i selDefault).isEmpty <;> simp

theorem rule5_any_iff (sh : SelectionsHistory) (cur : List Selection)
    (hlen : cur.length = sh.lastSelections.length) :
    ((List.range cur.length).any (fun i =>
        !(cur.getD i selDefault).isEmpty
        && !(cur.getD i selDefault).anchor.isEqual (sh.lastSelections.getD i selDefault).anchor
        && !(cur.getD i selDefault).active.isEqual (sh.lastSelections.getD i selDefault).active) = true)
      ↔ specRule4 sh cur := by
  rw [List.any_eq_true]
  constructor
  · rintro ⟨i, hi, hcond⟩
    rw [List.mem_range] at hi
    simp only [Bool.and_eq_true, Bool.not_eq_true'] at hcond
    exact ⟨i, hi, by omega, hcond.1.1, hcond.1.2, hcond.2⟩
  · rintro ⟨i, hi, -, he, ha, hb⟩
    refine ⟨i, List.mem_range.mpr hi, ?_⟩
    simp only [Bool.and_eq_true, Bool.not_eq_true']
    exact ⟨⟨he, ha⟩, hb⟩

theorem rule6_any_iff (sh : SelectionsHistory) (cur : List Selection)
    (hlen1 : cur.length = sh.lastSelections.length)
    (hlen2 : sh.lastSelections.length = sh.previousOfLastSelections.length) :
    ((List.range sh.lastSelections.length).any (fun i =>
        let diff1Lines := absLineDiff (sh.lastSelections.getD i selDefault).active.line
          (sh.previousOfLastSelections.getD i selDefault).active.line
        let diff2Lines := absLineDiff (cur.getD i selDefault).active.line
          (sh.lastSelections.getD i selDefault).active.line
        decide (diff1Lines * 5 < diff2Lines) || decide (diff1Lines > diff2Lines * 5)) = true)
      ↔ specRule5 sh cur := by
  rw [List.any_eq_true]
  constructor
  · rintro ⟨i, hi, hcond⟩
    rw [List.mem_range] at hi
    simp only [Bool.or_eq_true, decide_eq_true_eq] at hcond
    exact ⟨i, by omega, hi, by omega, hcond⟩
  · rintro ⟨i, -, hi, -, hor⟩
    refine ⟨i, List.mem_range.mpr hi, ?_⟩
    simp only [Bool.or_eq_true, decide_eq_true_eq]
    exact hor

/-- C1: the significance classifier returns true exactly when one of the
specification's rules holds (rules evaluated in order with short-circuit; for
a pure predicate this coincides with the disjunction of the seven positive
rules, the eighth being the final "otherwise false"). -/
theorem c1_classifier_matches_spec (sh : SelectionsHistory) (cur : List Selection)
    (curVer : Nat) :
    isLastSelectionsChangeSignificant sh cur curVer = true ↔ specSignificant sh cur curVer := by
  unfold isLastSelectionsChangeSignificant specSignificant
  split_ifs with h1 h2 h3 h4 h5 h6 h7
  · simp only [true_iff]
    exact Or.inl (by simpa [specRule1] using h1)
  · simp only [true_iff]
    exact Or.inr (Or.inl (by simpa [specRule2] using h2))
  · simp only [true_iff]
    have hlen : cur.length = sh.lastSelections.length := by simpa using h1
    exact Or.inr (Or.inr (Or.inl ((rule34_any_iff sh cur hlen).mp h3)))
  · simp only [true_iff]
    have hlen : cur.length = sh.lastSelections.length := by simpa using h1
    exact Or.inr (Or.inr (Or.inr (Or.inl ((rule5_any_iff sh cur hlen).mp h4))))
  · simp only [true_iff]
    have hlen1 : cur.length = sh.lastSelections.length := by simpa using h1
    have hlen2 : sh.lastSelections.length = sh.previousOfLastSelections.length := by
      simpa using h2
    exact Or.inr (Or.inr (Or.inr (Or.inr (Or.inl ((rule6_any_iff sh cur hlen1 hlen2).mp h5)))))
  · simp only [true_iff]
    refine Or.inr (Or.inr (Or.inr (Or.inr (Or.inr (Or.inl ?_)))))
    simpa [specRule6] using h6
  · simp only [true_iff]
    refine Or.inr (Or.inr (Or.inr (Or.inr (Or.inr (Or.inr ?_)))))
    simpa [specRule7] using h7
  · simp only [false_iff]
    have hlen1 : cur.length = sh.lastSelections.length := by simpa using h1
    have hlen2 : sh.lastSelections.length = sh.previousOfLastSelections.length := by
      simpa using h2
    rintro (hr | hr | hr | hr | hr | hr | hr)
    · exact hr hlen1
    · exact hr hlen2
    · exact h3 ((rule34_any_iff sh cur hlen1).mpr hr)
    · exact h4 ((rule5_any_iff sh cur hlen1).mpr hr)
    · exact h5 ((rule6_any_iff sh cur hlen1 hlen2).mpr hr)
    · exact absurd hr (by simpa [specRule6] using h6)
    · exact absurd hr (by simpa [specRule7] using h7)

/-- The stack-size invariant maintained by every operation: the undo stack
never exceeds `MAX_STACK_SIZE`, and whenever the redo stack is non-empty the
two stacks together fit in the bound (which is what keeps the untrimmed push
in `cursorRedo` safe). -/
def StackInv (h : DocumentHistory) : Prop :=
  h.undoStack.length ≤ MAX_STACK_SIZE
  ∧ (h.redoStack ≠ [] → h.undoStack.length + h.redoStack.length ≤ MAX_STACK_SIZE)

theorem stackInv_initial (live : List Selection) (ver : Nat) (now : Int) :
    StackInv (getInitialDocumentHistory live ver now) := by
  exact ⟨by simp [getInitialDocumentHistory, MAX_STACK_SIZE],
    fun hne => absurd rfl hne⟩

theorem stackInv_handleSelectionChange (h : DocumentHistory) (sels : List Selection)
    (ver : Nat) (now : Int) (hinv : StackInv h) :
    StackInv (handleSelectionChange h sels ver now) := by
  obtain ⟨hinv1, hinv2⟩ := hinv
  by_cases hcnt : h.undoRedoCounter = 0
  · obtain ⟨hu, hr, -, -, -⟩ := handleSelectionChange_unsuppressed_spec h sels ver now hcnt
    unfold StackInv
    rw [hu, hr]
    obtain ⟨hp1, hp2⟩ := pushIntoUndoStack_length h h.selectionsHistory.lastSelections
    split_ifs with hcond htrim
    · refine ⟨?_, fun hne => absurd rfl hne⟩
      simp only [List.length_drop]
      omega
    · refine ⟨?_, fun hne => absurd rfl hne⟩
      omega
    · exact ⟨hinv1, hinv2⟩
  · have hgt : h.undoRedoCounter > 0 := Nat.pos_of_ne_zero hcnt
    unfold handleSelectionChange
    rw [if_pos hgt]
    exact ⟨hinv1, hinv2⟩

theorem stackInv_cursorUndo (h : DocumentHistory) (live : List Selection) (ver : Nat)
    (now : Int) (hinv : StackInv h) : StackInv (cursorUndo (some h) live ver now).1 := by
  obtain ⟨hinv1, hinv2⟩ := hinv
  unfold cursorUndo
  dsimp only
  cases hl : h.undoStack.getLast? with
  | none => exact ⟨hinv1, hinv2⟩
  | some it =>
    have hne : h.undoStack ≠ [] := by
      intro hnil
      rw [hnil] at hl
      exact Option.noConfusion hl
    have hpos : 1 ≤ h.undoStack.length := List.length_pos.mpr hne
    dsimp only
    obtain ⟨hpu, -, -, -⟩ :=
      pushIntoRedoStack_fields { h with undoStack := h.undoStack.dropLast } live
    unfold StackInv
    dsimp only
    rw [hpu]
    dsimp only
    constructor
    · simp only [List.length_dropLast]
      omega
    · intro hne2
      rcases pushIntoRedoStack_cases { h with undoStack := h.undoStack.dropLast } live
        with hc | hc <;> rw [hc] at hne2 ⊢ <;> dsimp only at hne2 ⊢
      · have hsum := hinv2 hne2
        simp only [List.length_dropLast]
        omega
      · simp only [List.length_concat, List.length_dropLast]
        by_cases hr0 : h.redoStack = []
        · rw [hr0]
          simp only [List.length_nil]
          omega
        · have hsum := hinv2 hr0
          omega

theorem stackInv_cursorRedo (h : DocumentHistory) (live : List Selection) (ver : Nat)
    (hinv : StackInv h) (r : DocumentHistory × List Selection)
    (hok : cursorRedo (some h) live ver = .ok r) : StackInv r.1 := by
  obtain ⟨hinv1, hinv2⟩ := hinv
  unfold cursorRedo at hok
  dsimp only at hok
  cases hl : h.redoStack.getLast? with
  | none =>
    rw [hl] at hok
    dsimp only at hok
    injection hok with hr
    rw [← hr]
    exact ⟨hinv1, hinv2⟩
  | some it =>
    have hne : h.redoStack ≠ [] := by
      intro hnil
      rw [hnil] at hl
      exact Option.noConfusion hl
    have hpos : 1 ≤ h.redoStack.length := List.length_pos.mpr hne
    have hsum := hinv2 hne
    rw [hl] at hok
    dsimp only at hok
    injection hok with hr
    rw [← hr]
    obtain ⟨hrr, -, -, -⟩ :=
      pushIntoUndoStack_fields { h with redoStack := h.redoStack.dropLast } live
    unfold StackInv
    dsimp only
    rw [hrr]
    dsimp only
    constructor
    · rcases pushIntoUndoStack_cases { h with redoStack := h.redoStack.dropLast } live
        with hc | hc <;> rw [hc] <;> dsimp only
      · omega
      · simp only [List.length_concat]
        omega
    · intro hne2
      have hpos2 : 1 ≤ h.redoStack.dropLast.length := List.length_pos.mpr hne2
      simp only [List.length_dropLast] at hpos2
      rcases pushIntoUndoStack_cases { h with redoStack := h.redoStack.dropLast } live
        with hc | hc <;> rw [hc] <;> dsimp only <;>
        simp only [List.length_dropLast, List.length_concat] <;> omega

theorem stackInv_step (s : EditorState) (op : Op) (hinv : StackInv s.history) :
    StackInv (step s op).history := by
  cases op with
  | selChange sels ver now => exact stackInv_handleSelectionChange s.history sels ver now hinv
  | undo ver => exact stackInv_cursorUndo s.history s.live ver s.history.lastSelectionsTimestamp hinv
  | redo ver =>
    cases hr : cursorRedo (some s.history) s.live ver with
    | ok r =>
      have hstep : step s (Op.redo ver) = ⟨r.1, r.2⟩ := by
        simp only [step]
        rw [hr]
      rw [hstep]
      exact stackInv_cursorRedo s.history s.live ver hinv r hr
    | error e =>
      have hstep : step s (Op.redo ver) = s := by
        simp only [step]
        rw [hr]
      rw [hstep]
      exact hinv

theorem stackInv_run (s : EditorState) (ops : List Op) (hinv : StackInv s.history) :
    StackInv (run s ops).history := by
  induction ops generalizing s with
  | nil => exact hinv
  | cons op rest ih =>
    rw [run, List.foldl_cons]
    exact ih (step s op) (stackInv_step s op hinv)

/-- C3: starting from a freshly initialized document history, after every
sequence of selection-change events, undos and redos the undo stack holds at
most `MAX_STACK_SIZE` (999) entries — in particular also after `cursorRedo`'s
push of the live selections — and when a committing, non-deduplicated push
runs against a full undo stack, the oldest entry is evicted and the new entry
appended on top. -/
theorem c3_undo_stack_bounded :
    (∀ (live : List Selection) (ver : Nat) (now : Int) (ops : List Op),
      (run ⟨getInitialDocumentHistory live ver now, live⟩ ops).history.undoStack.length
        ≤ MAX_STACK_SIZE)
    ∧ ∀ (h : DocumentHistory) (sels : List Selection) (ver : Nat) (now : Int),
      h.undoRedoCounter = 0 →
      (now - h.lastSelectionsTimestamp > FOUR_SECONDS
        || isLastSelectionsChangeSignificant h.selectionsHistory sels ver) = true →
      h.undoStack.length = MAX_STACK_SIZE →
      (∀ top, h.undoStack.getLast? = some top →
        areSelectionsEqual h.selectionsHistory.lastSelections top.selections = false) →
      (handleSelectionChange h sels ver now).undoStack
        = (h.undoStack.drop 1).concat ⟨h.selectionsHistory.lastSelections⟩ := by
  constructor
  · intro live ver now ops
    exact (stackInv_run ⟨getInitialDocumentHistory live ver now, live⟩ ops
      (stackInv_initial live ver now)).1
  · intro h sels ver now hcnt hcond hfull hdedup
    obtain ⟨hu, -, -, -, -⟩ := handleSelectionChange_unsuppressed_spec h sels ver now hcnt
    rw [hu, if_pos hcond]
    have hne : h.undoStack ≠ [] := by
      intro hnil
      rw [hnil] at hfull
      exact absurd hfull (by decide)
    have htop : h.undoStack.getLast? = some (h.undoStack.getLast hne) :=
      List.getLast?_eq_getLast h.undoStack hne
    have hneq := hdedup _ htop
    have hpush : (pushIntoUndoStack h h.selectionsHistory.lastSelections).undoStack
        = h.undoStack.concat ⟨h.selectionsHistory.lastSelections⟩ := by
      unfold pushIntoUndoStack
      rw [htop]
      dsimp only
      rw [if_neg (by simp [hneq])]
    rw [hpush]
    have hlen : 1 ≤ h.undoStack.length := by
      rw [hfull]
      decide
    rw [if_pos (by simp only [List.length_concat, gt_iff_lt]; omega)]
    rw [List.concat_eq_append, List.concat_eq_append,
      List.drop_append_of_le_length hlen]

def fullStack : List UndoItem :=
  (List.replicate 998 ⟨[⟨⟨0, 0⟩, ⟨0, 0⟩⟩]⟩).concat ⟨[⟨⟨0, 0⟩, ⟨0, 0⟩⟩]⟩

def fullHistory : DocumentHistory :=
  ⟨⟨[], 1, [⟨⟨1, 0⟩, ⟨1, 0⟩⟩], 1⟩, fullStack, [], 0, 0⟩

theorem c3_undo_stack_bounded_witness :
    (handleSelectionChange fullHistory [⟨⟨2, 0⟩, ⟨2, 0⟩⟩] 1 1).undoStack
      = (fullHistory.undoStack.drop 1).concat ⟨fullHistory.selectionsHistory.lastSelections⟩ :=
  c3_undo_stack_bounded.2 fullHistory [⟨⟨2, 0⟩, ⟨2, 0⟩⟩] 1 1 rfl (by decide)
    (by
      rw [show fullHistory.undoStack = fullStack from rfl]
      unfold fullStack
      rw [List.length_concat, List.length_replicate]
      decide)
    (by
      intro top htop
      have hgen : ∀ (l : List UndoItem) (a : UndoItem), (l.concat a).getLast? = some a :=
        fun l a => by simp [List.concat_eq_append]
      have hgl : fullStack.getLast? = some ⟨[⟨⟨0, 0⟩, ⟨0, 0⟩⟩]⟩ := hgen _ _
      rw [show fullHistory.undoStack = fullStack from rfl, hgl] at htop
      cases Option.some.inj htop
      decide)

theorem significant_of_prev_empty (sh : SelectionsHistory) (cur : List Selection)
    (ver : Nat) (hprev : sh.previousOfLastSelections = [])
    (hlast : sh.lastSelections ≠ []) :
    isLastSelectionsChangeSignificant sh cur ver = true := by
  unfold isLastSelectionsChangeSignificant
  split_ifs with h1 h2 h3 h4 h5 h6 h7 <;> try rfl
  exfalso
  have hlen : sh.lastSelections.length = sh.previousOfLastSelections.length := by
    simpa using h2
  rw [hprev] at hlen
  simp only [List.length_nil] at hlen
  exact hlast (List.length_eq_zero.mp hlen)

/-- C10 (amended): after initialization, or after the window reset done by a
successful undo or redo, the window's previous selection list is empty; for
the next unsuppressed selection-change event, if the window's last list is
non-empty, the classifier necessarily reports significant, so the event
enters the commit branch: the redo stack is cleared and the window's last
list is pushed onto the undo stack subject to the dedup rule (the push, and
hence any growth of the undo stack, may still be skipped when that list
equals the undo stack's top entry). -/
theorem c10_amended_fresh_window_forces_commit :
    (∀ (live : List Selection) (ver : Nat),
      (getInitialSelectionsHistory live ver).previousOfLastSelections = [])
    ∧ (∀ (h : DocumentHistory) (live : List Selection) (ver : Nat) (now : Int),
        h.undoStack ≠ [] →
        (cursorUndo (some h) live ver now).1.selectionsHistory.previousOfLastSelections = [])
    ∧ (∀ (h : DocumentHistory) (live : List Selection) (ver : Nat)
          (r : DocumentHistory × List Selection),
        cursorRedo (some h) live ver = .ok r → h.redoStack ≠ [] →
        r.1.selectionsHistory.previousOfLastSelections = [])
    ∧ (∀ (h : DocumentHistory) (sels : List Selection) (ver : Nat) (now : Int),
        h.undoRedoCounter = 0 →
        h.selectionsHistory.previousOfLastSelections = [] →
        h.selectionsHistory.lastSelections ≠ [] →
        isLastSelectionsChangeSignificant h.selectionsHistory sels ver = true
        ∧ (handleSelectionChange h sels ver now).redoStack = []
        ∧ (handleSelectionChange h sels ver now).undoStack
          = (if (pushIntoUndoStack h h.selectionsHistory.lastSelections).undoStack.length
                > MAX_STACK_SIZE then
              (pushIntoUndoStack h h.selectionsHistory.lastSelections).undoStack.drop 1
            else (pushIntoUndoStack h h.selectionsHistory.lastSelections).undoStack)) := by
  refine ⟨fun live ver => rfl, ?_, ?_, ?_⟩
  · intro h live ver now hne
    unfold cursorUndo
    dsimp only
    rw [List.getLast?_eq_getLast h.undoStack hne]
    rfl
  · intro h live ver r hok hne
    unfold cursorRedo at hok
    dsimp only at hok
    rw [List.getLast?_eq_getLast h.redoStack hne] at hok
    dsimp only at hok
    injection hok with hr
    rw [← hr]
    rfl
  · intro h sels ver now hcnt hprev hlast
    have hsig := significant_of_prev_empty h.selectionsHistory sels ver hprev hlast
    obtain ⟨hu, hr, -, -, -⟩ := handleSelectionChange_unsuppressed_spec h sels ver now hcnt
    have hcond : (now - h.lastSelectionsTimestamp > FOUR_SECONDS
        || isLastSelectionsChangeSignificant h.selectionsHistory sels ver) = true := by
      rw [hsig, Bool.or_true]
    refine ⟨hsig, ?_, ?_⟩
    · rw [hr, if_pos hcond]
    · rw [hu, if_pos hcond]

def traceSelsA : List Selection := [⟨⟨0, 0⟩, ⟨0, 0⟩⟩]

def traceH3 : DocumentHistory :=
  handleSelectionChange
    (handleSelectionChange
      (handleSelectionChange (getInitialDocumentHistory traceSelsA 1 0)
        [⟨⟨1, 0⟩, ⟨1, 0⟩⟩] 1 1)
      [⟨⟨2, 0⟩, ⟨2, 0⟩⟩] 1 2)
    traceSelsA 1 3

def traceUndo : DocumentHistory × List Selection := cursorUndo (some traceH3) traceSelsA 1 3

def traceH5 : DocumentHistory := handleSelectionChange traceUndo.1 traceUndo.2 1 4

def traceH6 : DocumentHistory := ⟨⟨[], 1, traceSelsA, 1⟩, [⟨traceSelsA⟩], [], 3, 1⟩

def traceH7 : DocumentHistory := handleSelectionChange traceH6 traceSelsA 1 5

theorem c10_amended_fresh_window_forces_commit_witness :
    (cursorUndo (some traceH3) traceSelsA 1 3).1.selectionsHistory.previousOfLastSelections = []
    ∧ isLastSelectionsChangeSignificant traceH7.selectionsHistory [⟨⟨3, 0⟩, ⟨3, 0⟩⟩] 1 = true
    ∧ (handleSelectionChange traceH7 [⟨⟨3, 0⟩, ⟨3, 0⟩⟩] 1 6).redoStack = []
    ∧ (handleSelectionChange traceH7 [⟨⟨3, 0⟩, ⟨3, 0⟩⟩] 1 6).undoStack
      = (if (pushIntoUndoStack traceH7 traceH7.selectionsHistory.lastSelections).undoStack.length
            > MAX_STACK_SIZE then
          (pushIntoUndoStack traceH7 traceH7.selectionsHistory.lastSelections).undoStack.drop 1
        else (pushIntoUndoStack traceH7 traceH7.selectionsHistory.lastSelections).undoStack) :=
  ⟨c10_amended_fresh_window_forces_commit.2.1 traceH3 traceSelsA 1 3 (by decide),
   (c10_amended_fresh_window_forces_commit.2.2.2 traceH7 [⟨⟨3, 0⟩, ⟨3, 0⟩⟩] 1 6
      (by decide) (by decide) (by decide)).1,
   (c10_amended_fresh_window_forces_commit.2.2.2 traceH7 [⟨⟨3, 0⟩, ⟨3, 0⟩⟩] 1 6
      (by decide) (by decide) (by decide)).2.1,
   (c10_amended_fresh_window_forces_commit.2.2.2 traceH7 [⟨⟨3, 0⟩, ⟨3, 0⟩⟩] 1 6
      (by decide) (by decide) (by decide)).2.2⟩

/-- C10 counterexample: the claim says the first unsuppressed selection-change
event after a window reset always commits an entry to the undo stack.  In the
trace below — initialize at cursor A, move to lines 1 and 2 and back to A
(insignificant moves), undo (restores A, pushes A to redo), absorb the
self-triggered event, redo (restores A, pushes the live A back onto the undo
stack), absorb the self-triggered event — the next unsuppressed event is
classified significant and clears the redo stack, but the committed list A
equals the undo stack's top, the dedup rule skips the push, and the undo
stack does not grow. -/
theorem c10_counterexample_significant_event_commits_nothing :
    cursorRedo (some traceH5) traceUndo.2 1 = .ok (traceH6, traceSelsA)
    ∧ traceH5.redoStack ≠ []
    ∧ traceH7.undoRedoCounter = 0
    ∧ traceH7.selectionsHistory.previousOfLastSelections = []
    ∧ traceH7.selectionsHistory.lastSelections ≠ []
    ∧ isLastSelectionsChangeSignificant traceH7.selectionsHistory [⟨⟨3, 0⟩, ⟨3, 0⟩⟩] 1 = true
    ∧ (handleSelectionChange traceH7 [⟨⟨3, 0⟩, ⟨3, 0⟩⟩] 1 6).undoStack = traceH7.undoStack
    ∧ traceH7.undoStack.length = 1 :=
  ⟨by rfl, by decide, by decide, by decide, by decide, by decide, by decide, by decide⟩

def windowPrevEmpty : SelectionsHistory := ⟨[], 1, [⟨⟨0, 0⟩, ⟨0, 0⟩⟩], 1⟩

theorem c1_classifier_matches_spec_witness :
    isLastSelectionsChangeSignificant windowPrevEmpty [⟨⟨0, 0⟩, ⟨0, 0⟩⟩] 1 = true
      ↔ specSignificant windowPrevEmpty [⟨⟨0, 0⟩, ⟨0, 0⟩⟩] 1 :=
  c1_classifier_matches_spec windowPrevEmpty [⟨⟨0, 0⟩, ⟨0, 0⟩⟩] 1

theorem c6_uninitialized_redo_throws_undo_heals_witness :
    cursorRedo none [selDefault] 1 = .error missingHistoryError
    ∧ cursorUndo none [selDefault] 1 0 = (getInitialDocumentHistory [selDefault] 1 0, [selDefault]) :=
  c6_uninitialized_redo_throws_undo_heals [selDefault] 1 0

theorem c9_amended_reveal_decision_witness :
    (revealActiveCursor [⟨⟨20, 0⟩, ⟨30, 5⟩⟩] fiftyLineDoc ⟨25, 3⟩ = RevealAction.noScroll
      ↔ ∃ r ∈ [(⟨⟨20, 0⟩, ⟨30, 5⟩⟩ : Range)], r.contains ⟨25, 3⟩ = true)
    ∧ (revealActiveCursor [⟨⟨20, 0⟩, ⟨30, 5⟩⟩] fiftyLineDoc ⟨25, 3⟩ = RevealAction.minimal
      ↔ ((∀ r ∈ [(⟨⟨20, 0⟩, ⟨30, 5⟩⟩ : Range)], r.contains ⟨25, 3⟩ = false)
          ∧ ∃ r ∈ [(⟨⟨20, 0⟩, ⟨30, 5⟩⟩ : Range)],
              isCursorNearlyVisibleInRange r fiftyLineDoc ⟨25, 3⟩ = true))
    ∧ (revealActiveCursor [⟨⟨20, 0⟩, ⟨30, 5⟩⟩] fiftyLineDoc ⟨25, 3⟩ = RevealAction.center
      ↔ ((∀ r ∈ [(⟨⟨20, 0⟩, ⟨30, 5⟩⟩ : Range)], r.contains ⟨25, 3⟩ = false)
          ∧ ∀ r ∈ [(⟨⟨20, 0⟩, ⟨30, 5⟩⟩ : Range)],
              isCursorNearlyVisibleInRange r fiftyLineDoc ⟨25, 3⟩ = false)) :=
  c9_amended_reveal_decision [⟨⟨20, 0⟩, ⟨30, 5⟩⟩] fiftyLineDoc ⟨25, 3⟩
